import Mathlib

/-!
Verification of the request-building core of the Flickr REST client
(src/types/flickr-sdk/services/rest.js): the extras normalizer
`processExtras`, the API-key plugin `createAPIKeyPlugin`, the client
factory `createClient`, the `Flickr` constructor, and the per-operation
wrappers such as `photos.getInfo`.

JavaScript values that can reach these functions are modelled by `JSVal`;
thrown errors by `JSError` inside `Except`.  A JS `Set` of strings is
modelled by its insertion-ordered element list (which a real `Set`
guarantees to be duplicate-free; theorems that need this carry it as a
hypothesis).  Association lists model JS objects in property-insertion
order.
-/

namespace FlickrRest

/-- A JavaScript value of one of the shapes that can reach the
request-building core: a string, an array of strings, a `Set` of strings
(modelled as its insertion-ordered element list), a number, a boolean,
or `null`. -/
inductive JSVal where
  | vStr : String → JSVal
  | vArr : List String → JSVal
  | vSet : List String → JSVal
  | vNum : Int → JSVal
  | vBool : Bool → JSVal
  | vNull : JSVal
deriving Repr, DecidableEq

/-- JavaScript truthiness of a `JSVal`: empty string, zero, `false` and
`null` are falsy; arrays and Sets are objects and hence always truthy. -/
def truthy : JSVal → Bool
  | .vStr s => s ≠ ""
  | .vArr _ => true
  | .vSet _ => true
  | .vNum n => n ≠ 0
  | .vBool b => b
  | .vNull => false

/-- Errors thrown by the core, identified by the parameter they name:
`Invalid type for argument "<p>"` and `Missing required argument "<p>"`
in the source. -/
inductive JSError where
  | invalidArgumentType (param : String) : JSError
  | missingRequiredArgument (param : String) : JSError
deriving Repr, DecidableEq

/-- A JS object of request arguments (`args`), in property-insertion
order. -/
abbrev Args := List (String × JSVal)

/-- Property read `args[k]`: the first (and in a JS object, only) entry
with key `k`; `none` models `undefined`. -/
def lookupArg (args : Args) (k : String) : Option JSVal :=
  (args.find? (fun p => p.1 = k)).map (fun p => p.2)

/-- Property write `args[k] = v` on a key already present: every entry
with key `k` is replaced in place, the rest is untouched. -/
def setArg (args : Args) (k : String) (v : JSVal) : Args :=
  args.map (fun p => if p.1 = k then (k, v) else p)

/-- Walks the list keeping each element not yet `seen`, in order. -/
def dedupFirstAux (seen : List String) : List String → List String
  | [] => []
  | a :: l =>
    if a ∈ seen then dedupFirstAux seen l
    else a :: dedupFirstAux (a :: seen) l

/-- First-occurrence deduplication of a list of strings: the element
list of the JS `new Set(arr)` (iteration in insertion order, keeping the
first occurrence of each element). -/
def dedupFirst (l : List String) : List String :=
  dedupFirstAux [] l

/-- `extras` values the normalizer accepts without throwing:
a string, an array, or a `Set` (rest.js lines 33-39). -/
def validExtrasShape : JSVal → Bool
  | .vStr _ => true
  | .vArr _ => true
  | .vSet _ => true
  | _ => false

/-- The field list underlying an `extras` value: a string is split on
commas, an array or `Set` contributes its elements. -/
def extrasFields : JSVal → List String
  | .vStr s => s.splitOn ","
  | .vArr l => l
  | .vSet l => l
  | _ => []

/-- `processExtras` (rest.js lines 32-52).  A non-string/array/`Set`
throws `Invalid type for argument "extras"`.  A string is split on
commas into an array; an array is fed through `new Set` (first-occurrence
deduplication); a `Set` is joined with commas via `Array.from`. -/
def processExtras (extras : JSVal) : Except JSError String :=
  match extras with
  | .vStr s => .ok (String.intercalate "," (dedupFirst (s.splitOn ",")))
  | .vArr l => .ok (String.intercalate "," (dedupFirst l))
  | .vSet l => .ok (String.intercalate "," l)
  | _ => .error (JSError.invalidArgumentType "extras")

/-- Modelled from the spec: the `OutgoingRequest` assembled by the
request library (`../lib/request`, a superagent wrapper that is not
under src/): HTTP verb, target URL, ordered query parameters, a flag
recording that the JSON response-parsing decorator was attached, and
headers a caller-supplied auth decorator may add. -/
structure OutgoingRequest where
  verb : String
  url : String
  query : List (String × JSVal)
  parseJSON : Bool
  headers : List (String × String)
deriving Repr, DecidableEq

/-- Modelled from the spec: the superagent call `req.query(obj)`
appends the entries of `obj` to the request's query parameters (the
request library itself is not under src/).  Named `addQuery` because the
`query` field occupies the method name. -/
def OutgoingRequest.addQuery (r : OutgoingRequest)
    (ps : List (String × JSVal)) : OutgoingRequest :=
  { r with query := r.query ++ ps }

/-- Modelled from the spec: `req.use(plugin)` applies a request
decorator to the request (superagent semantics; the request library
itself is not under src/). -/
def OutgoingRequest.use (r : OutgoingRequest)
    (plugin : OutgoingRequest → OutgoingRequest) : OutgoingRequest :=
  plugin r

/-- Modelled from the spec: `request(verb, url)` creates a fresh request
with no query parameters and no decorators attached (`../lib/request`,
not under src/). -/
def request (verb url : String) : OutgoingRequest :=
  { verb := verb, url := url, query := [], parseJSON := false, headers := [] }

/-- Modelled from the spec: the JSON response-parsing decorator
(`../plugins/json`, not under src/) instructs the transport to parse the
response body as the API's JSON envelope; it touches nothing else. -/
def json (r : OutgoingRequest) : OutgoingRequest :=
  { r with parseJSON := true }

/-- `createAPIKeyPlugin` (rest.js lines 18-22): a decorator adding the
single query parameter `api_key=<str>`. -/
def createAPIKeyPlugin (str : String) : OutgoingRequest → OutgoingRequest :=
  fun req => req.addQuery [("api_key", JSVal.vStr str)]

/-- The `auth` argument of `createClient`: a string, a function, or any
other (invalid) value. -/
inductive AuthArg where
  | str : String → AuthArg
  | fn : (OutgoingRequest → OutgoingRequest) → AuthArg
  | other : JSVal → AuthArg

/-- Client construction options `{host, port}`; absent fields are
`none`. -/
structure Opts where
  host : Option String := none
  port : Option Nat := none

/-- rest.js lines 78-83: `opts = opts || {}`,
`host = opts.host || 'api.flickr.com'` (a falsy host falls back to the
default), and `if (opts.port) host += ':' + opts.port` (a falsy port is
not appended). -/
def resolveHost (opts : Option Opts) : String :=
  let o := opts.getD {}
  let host :=
    match o.host with
    | some h => if h = "" then "api.flickr.com" else h
    | none => "api.flickr.com"
  match o.port with
  | some p => if p = 0 then host else host ++ ":" ++ toString p
  | none => host

/-- rest.js lines 90-92: `if (args.extras) { args.extras =
processExtras(args.extras); }` — the extras entry is rewritten only when
present and truthy, and the normalizer's error propagates. -/
def processArgs (args : Args) : Except JSError Args :=
  match lookupArg args "extras" with
  | some v =>
    if truthy v then
      match processExtras v with
      | .error e => .error e
      | .ok e => .ok (setArg args "extras" (JSVal.vStr e))
    else .ok args
  | none => .ok args

/-- rest.js lines 94-98: the returned request,
`request(verb, 'https://' + host + '/services/rest')
  .query({ method: method }).query(args).use(json).use(auth)`. -/
def assemble (host verb method : String) (args : Args)
    (auth : OutgoingRequest → OutgoingRequest) : OutgoingRequest :=
  ((((request verb ("https://" ++ host ++ "/services/rest")).addQuery
      [("method", JSVal.vStr method)]).addQuery args).use json).use auth

/-- The request builder returned by `createClient`: verb, method name,
and optional args (`args = {}` when `undefined`, rest.js lines 86-88). -/
abbrev Builder := String → String → Option Args → Except JSError OutgoingRequest

/-- rest.js lines 69-75: a string auth is wrapped by
`createAPIKeyPlugin`; a non-function after that throws
`Missing required argument "auth"`. -/
def authToFn : AuthArg → Except JSError (OutgoingRequest → OutgoingRequest)
  | .str s => .ok (createAPIKeyPlugin s)
  | .fn f => .ok f
  | .other _ => .error (JSError.missingRequiredArgument "auth")

/-- `createClient` (rest.js lines 65-101): resolve the auth decorator
and the host, then return the request builder. -/
def createClient (auth : AuthArg) (opts : Option Opts) :
    Except JSError Builder :=
  match authToFn auth with
  | .error e => .error e
  | .ok authFn =>
    let host := resolveHost opts
    .ok (fun verb method args =>
      match processArgs (args.getD []) with
      | .error e => .error e
      | .ok args => .ok (assemble host verb method args authFn))

/-- Runs a builder obtained from `createClient`, propagating a
construction error. -/
def buildWith (c : Except JSError Builder) (verb method : String)
    (args : Option Args) : Except JSError OutgoingRequest :=
  match c with
  | .ok b => b verb method args
  | .error e => .error e

/-- `new Flickr(auth, opts)` (rest.js lines 385-436): every namespace
shares the one client `createClient(auth, opts)`. -/
def FlickrNew (auth : AuthArg) (opts : Option Opts) :
    Except JSError Builder :=
  createClient auth opts

/-- `Flickr(auth, opts)` called without `new` (rest.js lines 388-390):
`return new Flickr(auth)` — the `opts` argument is not forwarded. -/
def FlickrNoNew (auth : AuthArg) (opts : Option Opts) :
    Except JSError Builder :=
  FlickrNew auth none

/-- Modelled from the spec: `validate(args, name)` (`../lib/validate`,
not under src/) fails with `MissingRequiredArgument` naming `name` when
that parameter is absent from `args`. -/
def validate (args : Option Args) (param : String) : Except JSError Unit :=
  match lookupArg (args.getD []) param with
  | some _ => .ok ()
  | none => .error (JSError.missingRequiredArgument param)

/-- `Flickr.prototype.photos.getInfo` (rest.js lines 1653-1656):
`validate(args, 'photo_id')` then
`this._('GET', 'flickr.photos.getInfo', args)`. -/
def photosGetInfo (client : Builder) (args : Option Args) :
    Except JSError OutgoingRequest :=
  match validate args "photo_id" with
  | .error e => .error e
  | .ok _ => client "GET" "flickr.photos.getInfo" args

/-! Helper lemmas shared by the claim theorems. -/

/-- An element survives the deduplication walk exactly when the input
holds it and it was not already seen. -/
theorem mem_dedupFirstAux (x : String) :
    ∀ (l seen : List String),
      x ∈ dedupFirstAux seen l ↔ x ∈ l ∧ x ∉ seen := by
  intro l
  induction l with
  | nil => intro seen; simp [dedupFirstAux]
  | cons a l ih =>
    intro seen
    unfold dedupFirstAux
    by_cases ha : a ∈ seen
    · rw [if_pos ha, ih]
      constructor
      · rintro ⟨hx, hs⟩; exact ⟨List.mem_cons_of_mem _ hx, hs⟩
      · rintro ⟨hx, hs⟩
        rcases List.mem_cons.mp hx with h1 | h1
        · subst h1; exact absurd ha hs
        · exact ⟨h1, hs⟩
    · rw [if_neg ha, List.mem_cons, ih]
      simp only [List.mem_cons, not_or]
      constructor
      · rintro (rfl | ⟨hx, hxa, hs⟩)
        · exact ⟨Or.inl rfl, ha⟩
        · exact ⟨Or.inr hx, hs⟩
      · rintro ⟨rfl | hx, hs⟩
        · exact Or.inl rfl
        · by_cases hxa : x = a
          · exact Or.inl hxa
          · exact Or.inr ⟨hx, hxa, hs⟩

/-- The deduplication walk yields a duplicate-free list. -/
theorem nodup_dedupFirstAux :
    ∀ (l seen : List String), (dedupFirstAux seen l).Nodup := by
  intro l
  induction l with
  | nil => intro seen; simp [dedupFirstAux]
  | cons a l ih =>
    intro seen
    unfold dedupFirstAux
    by_cases ha : a ∈ seen
    · rw [if_pos ha]; exact ih seen
    · rw [if_neg ha]
      refine List.nodup_cons.mpr ⟨?_, ih (a :: seen)⟩
      rw [mem_dedupFirstAux]
      rintro ⟨-, hs⟩
      exact hs (List.mem_cons_self a seen)

/-- Membership is preserved by first-occurrence deduplication. -/
theorem mem_dedupFirst (x : String) (l : List String) :
    x ∈ dedupFirst l ↔ x ∈ l := by
  rw [dedupFirst, mem_dedupFirstAux]
  simp

/-- First-occurrence deduplication yields a duplicate-free list. -/
theorem nodup_dedupFirst (l : List String) : (dedupFirst l).Nodup :=
  nodup_dedupFirstAux l []

/-- A successful property read locates the entry in the object. -/
theorem lookupArg_mem {args : Args} {k : String} {v : JSVal}
    (h : lookupArg args k = some v) : (k, v) ∈ args := by
  unfold lookupArg at h
  cases hf : args.find? (fun p => p.1 = k) with
  | none => simp [hf] at h
  | some p =>
    simp [hf] at h
    have hm := List.mem_of_find?_eq_some hf
    have hp := List.find?_some hf
    simp at hp
    have hkv : (k, v) = p := by
      cases p with
      | mk a b =>
        simp at hp h
        exact Prod.ext hp.symm h.symm
    rw [hkv]; exact hm

/-- Rewriting a key that the object holds leaves the new value in the
object. -/
theorem mem_setArg {args : Args} {k : String} {v₀ : JSVal} (v : JSVal)
    (h : (k, v₀) ∈ args) : (k, v) ∈ setArg args k v := by
  unfold setArg
  refine List.mem_map.mpr ⟨(k, v₀), h, ?_⟩
  simp

/-- The normalizer on a valid input: its output is the comma-join of a
field list that is duplicate-free (for a `Set` input this is the `Set`
invariant) and has exactly the members of the input's field list. -/
theorem processExtras_fields (v : JSVal) (hv : validExtrasShape v = true)
    (hset : ∀ l, v = JSVal.vSet l → l.Nodup) :
    ∃ fields : List String,
      processExtras v = Except.ok (String.intercalate "," fields) ∧
      fields.Nodup ∧ (∀ x, x ∈ fields ↔ x ∈ extrasFields v) := by
  cases v with
  | vStr s =>
    exact ⟨dedupFirst (s.splitOn ","), rfl, nodup_dedupFirst _,
      fun x => mem_dedupFirst x _⟩
  | vArr l =>
    exact ⟨dedupFirst l, rfl, nodup_dedupFirst _, fun x => mem_dedupFirst x _⟩
  | vSet l => exact ⟨l, rfl, hset l rfl, fun x => Iff.rfl⟩
  | vNum n => simp [validExtrasShape] at hv
  | vBool b => simp [validExtrasShape] at hv
  | vNull => simp [validExtrasShape] at hv

/-- The normalizer on an invalid input throws
`Invalid type for argument "extras"`. -/
theorem processExtras_err {v : JSVal} (h : validExtrasShape v = false) :
    processExtras v = Except.error (JSError.invalidArgumentType "extras") := by
  cases v <;> simp_all [validExtrasShape, processExtras]

/-- Unfolding of the assembled request: the auth decorator is applied to
the request carrying the URL, the method parameter, all processed args,
and the JSON flag. -/
theorem assemble_eq (host verb method : String) (a : Args)
    (auth : OutgoingRequest → OutgoingRequest) :
    assemble host verb method a auth =
      auth { verb := verb, url := "https://" ++ host ++ "/services/rest",
             query := ("method", JSVal.vStr method) :: a,
             parseJSON := true, headers := [] } := rfl

/-- Query parameters of a request assembled with the API-key plugin. -/
theorem query_assemble_apiKey (host verb method : String) (a : Args)
    (key : String) :
    (assemble host verb method a (createAPIKeyPlugin key)).query =
      ("method", JSVal.vStr method) :: a ++ [("api_key", JSVal.vStr key)] := rfl

/-- Target URL of a request assembled with the API-key plugin. -/
theorem url_assemble_apiKey (host verb method : String) (a : Args)
    (key : String) :
    (assemble host verb method a (createAPIKeyPlugin key)).url =
      "https://" ++ host ++ "/services/rest" := rfl

/-- Evaluation of a build through a client constructed from an API key. -/
theorem buildWith_str (key verb method : String) (opts : Option Opts)
    (args : Option Args) :
    buildWith (createClient (AuthArg.str key) opts) verb method args =
      match processArgs (args.getD []) with
      | .error e => .error e
      | .ok a => .ok (assemble (resolveHost opts) verb method a
          (createAPIKeyPlugin key)) := rfl

/-- Evaluation of a build through a client constructed from a callable
auth decorator. -/
theorem buildWith_fn (f : OutgoingRequest → OutgoingRequest)
    (verb method : String) (opts : Option Opts) (args : Option Args) :
    buildWith (createClient (AuthArg.fn f) opts) verb method args =
      match processArgs (args.getD []) with
      | .error e => .error e
      | .ok a => .ok (assemble (resolveHost opts) verb method a f) := rfl

/-! The claim theorems. -/

/-- C1: for every input to `processExtras` that is a comma-separated
string, an array of strings, or a `Set` of strings (in particular one
containing duplicate field names), the output is a single comma-joined
string containing each distinct field name exactly once: it is the
comma-join of a duplicate-free list with exactly the members of the
input's field list; e.g. `["tags","tags","views"]` yields
`"tags,views"`. -/
theorem processExtras_unique_fields (v : JSVal)
    (hv : validExtrasShape v = true)
    (hset : ∀ l, v = JSVal.vSet l → l.Nodup) :
    (∃ fields : List String,
      processExtras v = Except.ok (String.intercalate "," fields) ∧
      fields.Nodup ∧ (∀ x, x ∈ fields ↔ x ∈ extrasFields v)) ∧
    processExtras (JSVal.vArr ["tags", "tags", "views"]) =
      Except.ok "tags,views" :=
  ⟨processExtras_fields v hv hset, rfl⟩

/-- Witness for C1 at the concrete input `"a,b,a"` (a comma-separated
string with a duplicate field name). -/
theorem processExtras_unique_fields_witness :
    (∃ fields : List String,
      processExtras (JSVal.vStr "a,b,a") =
        Except.ok (String.intercalate "," fields) ∧
      fields.Nodup ∧
      (∀ x, x ∈ fields ↔ x ∈ extrasFields (JSVal.vStr "a,b,a"))) ∧
    processExtras (JSVal.vArr ["tags", "tags", "views"]) =
      Except.ok "tags,views" :=
  processExtras_unique_fields (JSVal.vStr "a,b,a") (by decide)
    (fun l h => by cases h)

/-- C3: for every input to `processExtras` that is neither a string, an
array, nor a `Set` (e.g. a number), the normalizer fails with the
`InvalidArgumentType` error naming `extras`, and for no such input does
it return a value. -/
theorem processExtras_invalid_shape (v : JSVal)
    (h : validExtrasShape v = false) :
    processExtras v = Except.error (JSError.invalidArgumentType "extras") ∧
    ∀ s : String, processExtras v ≠ Except.ok s := by
  refine ⟨processExtras_err h, ?_⟩
  intro s hs
  rw [processExtras_err h] at hs
  exact Except.noConfusion hs

/-- Witness for C3 at the concrete input `7` (a number). -/
theorem processExtras_invalid_shape_witness :
    processExtras (JSVal.vNum 7) =
      Except.error (JSError.invalidArgumentType "extras") ∧
    ∀ s : String, processExtras (JSVal.vNum 7) ≠ Except.ok s :=
  processExtras_invalid_shape (JSVal.vNum 7) (by decide)

/-- C7: for every `auth` argument that is neither a string nor a
function, `createClient` fails with the `MissingRequiredArgument` error
naming `auth`, whatever the options, and no request builder is
produced. -/
theorem invalid_auth_fails (v : JSVal) (opts : Option Opts) :
    createClient (AuthArg.other v) opts =
      Except.error (JSError.missingRequiredArgument "auth") ∧
    ∀ b : Builder, createClient (AuthArg.other v) opts ≠ Except.ok b := by
  refine ⟨rfl, ?_⟩
  intro b hb
  exact Except.noConfusion hb

/-- C8: calling `photos.getInfo` with `photo_id` absent from `args`
fails with the `MissingRequiredArgument` error naming `photo_id`; the
result is the same whatever request builder the client holds, so the
Request Factory is never invoked and no request is constructed. -/
theorem getInfo_missing_photo_id (client : Builder) (args : Option Args)
    (h : lookupArg (args.getD []) "photo_id" = none) :
    photosGetInfo client args =
      Except.error (JSError.missingRequiredArgument "photo_id") ∧
    ∀ client₂ : Builder, photosGetInfo client args = photosGetInfo client₂ args := by
  have hv : validate args "photo_id" =
      Except.error (JSError.missingRequiredArgument "photo_id") := by
    unfold validate; rw [h]
  constructor
  · unfold photosGetInfo; rw [hv]
  · intro client₂
    unfold photosGetInfo; rw [hv]

/-- Witness for C8: a concrete call whose `args` lack `photo_id`. -/
theorem getInfo_missing_photo_id_witness :
    photosGetInfo (fun _ _ _ => Except.error (JSError.invalidArgumentType "never"))
        (some [("secret", JSVal.vNum 1)]) =
      Except.error (JSError.missingRequiredArgument "photo_id") ∧
    ∀ client₂ : Builder,
      photosGetInfo (fun _ _ _ => Except.error (JSError.invalidArgumentType "never"))
          (some [("secret", JSVal.vNum 1)]) =
        photosGetInfo client₂ (some [("secret", JSVal.vNum 1)]) :=
  getInfo_missing_photo_id
    (fun _ _ _ => Except.error (JSError.invalidArgumentType "never"))
    (some [("secret", JSVal.vNum 1)]) (by decide)

/-- C2 counterexample: with `extras` bound to the number `0` (falsy),
the builder does not fail — it succeeds and transmits `extras=0`
unchanged, because rest.js guards the normalizer behind the truthiness
test `if (args.extras)`. -/
theorem extras_zero_not_normalized :
    buildWith (createClient (AuthArg.str "k") none) "GET" "x.y"
        (some [("extras", JSVal.vNum 0)]) =
      Except.ok { verb := "GET", url := "https://api.flickr.com/services/rest",
                  query := [("method", JSVal.vStr "x.y"),
                            ("extras", JSVal.vNum 0),
                            ("api_key", JSVal.vStr "k")],
                  parseJSON := true, headers := [] } ∧
    ∀ e : JSError,
      buildWith (createClient (AuthArg.str "k") none) "GET" "x.y"
          (some [("extras", JSVal.vNum 0)]) ≠ Except.error e := by
  refine ⟨rfl, ?_⟩
  intro e he
  rw [buildWith_str] at he
  exact Except.noConfusion he

/-- C2 amended: for every args mapping whose `extras` entry is truthy,
the builder replaces that value with the normalizer's output before
assembling the request and fails with the normalizer's
`InvalidArgumentType` error when the value is not a string, array, or
`Set`; a falsy `extras` value (such as the number `0`) is left in the
query unchanged and raises no error. -/
theorem extras_truthy_normalized (key verb method : String) (args : Args)
    (v : JSVal) (hl : lookupArg args "extras" = some v) :
    (truthy v = true → validExtrasShape v = false →
      buildWith (createClient (AuthArg.str key) none) verb method (some args) =
        Except.error (JSError.invalidArgumentType "extras")) ∧
    (truthy v = true → ∀ s : String, processExtras v = Except.ok s →
      ∃ req : OutgoingRequest,
        buildWith (createClient (AuthArg.str key) none) verb method (some args) =
          Except.ok req ∧ ("extras", JSVal.vStr s) ∈ req.query) ∧
    (truthy v = false →
      ∃ req : OutgoingRequest,
        buildWith (createClient (AuthArg.str key) none) verb method (some args) =
          Except.ok req ∧ ("extras", v) ∈ req.query) := by
  refine ⟨?_, ?_, ?_⟩
  · intro ht hbad
    rw [buildWith_str]
    have hpa : processArgs args = Except.error (JSError.invalidArgumentType "extras") := by
      simp [processArgs, hl, ht, processExtras_err hbad]
    simp only [Option.getD_some, hpa]
  · intro ht s hs
    rw [buildWith_str]
    have hpa : processArgs args = Except.ok (setArg args "extras" (JSVal.vStr s)) := by
      simp [processArgs, hl, ht, hs]
    simp only [Option.getD_some, hpa]
    refine ⟨_, rfl, ?_⟩
    rw [query_assemble_apiKey]
    exact List.mem_cons_of_mem _
      (List.mem_append_left _ (mem_setArg _ (lookupArg_mem hl)))
  · intro hf
    rw [buildWith_str]
    have hpa : processArgs args = Except.ok args := by
      simp [processArgs, hl, hf]
    simp only [Option.getD_some, hpa]
    refine ⟨_, rfl, ?_⟩
    rw [query_assemble_apiKey]
    exact List.mem_cons_of_mem _ (List.mem_append_left _ (lookupArg_mem hl))

/-- Witness for C2-amended at the concrete args
`{extras: "a,b,a"}` (a truthy, valid value). -/
theorem extras_truthy_normalized_witness :
    (truthy (JSVal.vStr "a,b,a") = true →
      validExtrasShape (JSVal.vStr "a,b,a") = false →
      buildWith (createClient (AuthArg.str "k") none) "GET" "x.y"
          (some [("extras", JSVal.vStr "a,b,a")]) =
        Except.error (JSError.invalidArgumentType "extras")) ∧
    (truthy (JSVal.vStr "a,b,a") = true →
      ∀ s : String, processExtras (JSVal.vStr "a,b,a") = Except.ok s →
      ∃ req : OutgoingRequest,
        buildWith (createClient (AuthArg.str "k") none) "GET" "x.y"
            (some [("extras", JSVal.vStr "a,b,a")]) =
          Except.ok req ∧ ("extras", JSVal.vStr s) ∈ req.query) ∧
    (truthy (JSVal.vStr "a,b,a") = false →
      ∃ req : OutgoingRequest,
        buildWith (createClient (AuthArg.str "k") none) "GET" "x.y"
            (some [("extras", JSVal.vStr "a,b,a")]) =
          Except.ok req ∧ ("extras", JSVal.vStr "a,b,a") ∈ req.query) :=
  extras_truthy_normalized "k" "GET" "x.y" [("extras", JSVal.vStr "a,b,a")]
    (JSVal.vStr "a,b,a") rfl

/-- C4: through any auth decorator that preserves the query parameters
it is given and the target URL (the spec's auth-plugin contract: it only
adds credential material), every successfully built request contains the
query parameter `method=<methodName>`, and with no host/port options its
target URL is `https://api.flickr.com/services/rest`; in particular
`build("GET", "flickr.test.echo", {})` on an API-key client yields
exactly that method parameter and URL. -/
theorem build_method_param_and_default_url
    (f : OutgoingRequest → OutgoingRequest)
    (hf : ∀ r : OutgoingRequest, r.query ⊆ (f r).query ∧ (f r).url = r.url)
    (verb method : String) (args : Option Args) (req : OutgoingRequest)
    (hreq : buildWith (createClient (AuthArg.fn f) none) verb method args =
      Except.ok req) :
    (("method", JSVal.vStr method) ∈ req.query ∧
      req.url = "https://api.flickr.com/services/rest") ∧
    buildWith (createClient (AuthArg.str "key") none) "GET" "flickr.test.echo"
        (some []) =
      Except.ok { verb := "GET", url := "https://api.flickr.com/services/rest",
                  query := [("method", JSVal.vStr "flickr.test.echo"),
                            ("api_key", JSVal.vStr "key")],
                  parseJSON := true, headers := [] } := by
  refine ⟨?_, rfl⟩
  rw [buildWith_fn] at hreq
  cases hpa : processArgs (args.getD []) with
  | error e => rw [hpa] at hreq; exact Except.noConfusion hreq
  | ok a =>
    rw [hpa] at hreq
    have hr : req = assemble (resolveHost none) verb method a f :=
      (Except.ok.inj hreq).symm
    rw [hr, assemble_eq]
    constructor
    · exact (hf _).1 (List.mem_cons_self _ _)
    · rw [(hf _).2]; rfl

/-- Witness for C4: the API-key plugin for `"K"` preserves query and
URL, and a concrete build through it carries the method parameter and
the default URL. -/
theorem build_method_param_and_default_url_witness :
    (("method", JSVal.vStr "m.n") ∈
      [("method", JSVal.vStr "m.n"), ("api_key", JSVal.vStr "K")] ∧
      OutgoingRequest.url
        { verb := "GET", url := "https://api.flickr.com/services/rest",
          query := [("method", JSVal.vStr "m.n"), ("api_key", JSVal.vStr "K")],
          parseJSON := true, headers := [] } =
        "https://api.flickr.com/services/rest") ∧
    buildWith (createClient (AuthArg.str "key") none) "GET" "flickr.test.echo"
        (some []) =
      Except.ok { verb := "GET", url := "https://api.flickr.com/services/rest",
                  query := [("method", JSVal.vStr "flickr.test.echo"),
                            ("api_key", JSVal.vStr "key")],
                  parseJSON := true, headers := [] } :=
  build_method_param_and_default_url (createAPIKeyPlugin "K")
    (fun r => ⟨List.subset_append_left _ _, rfl⟩) "GET" "m.n" (some [])
    { verb := "GET", url := "https://api.flickr.com/services/rest",
      query := [("method", JSVal.vStr "m.n"), ("api_key", JSVal.vStr "K")],
      parseJSON := true, headers := [] } rfl

/-- C5: the decorator of a client constructed from a plain API-key
string appends exactly the single query parameter `api_key=<key>`, and
every request the client successfully builds includes that parameter. -/
theorem apiKey_client_adds_api_key (key : String) (opts : Option Opts)
    (verb method : String) (args : Option Args) (req : OutgoingRequest)
    (hreq : buildWith (createClient (AuthArg.str key) opts) verb method args =
      Except.ok req) :
    (∀ r : OutgoingRequest, (createAPIKeyPlugin key r).query =
      r.query ++ [("api_key", JSVal.vStr key)]) ∧
    ("api_key", JSVal.vStr key) ∈ req.query := by
  refine ⟨fun r => rfl, ?_⟩
  rw [buildWith_str] at hreq
  cases hpa : processArgs (args.getD []) with
  | error e => rw [hpa] at hreq; exact Except.noConfusion hreq
  | ok a =>
    rw [hpa] at hreq
    have hr : req =
        assemble (resolveHost opts) verb method a (createAPIKeyPlugin key) :=
      (Except.ok.inj hreq).symm
    rw [hr, query_assemble_apiKey]
    exact List.mem_cons_of_mem _
      (List.mem_append_right _ (List.mem_singleton.mpr rfl))

/-- Witness for C5: a concrete build through the client constructed
from the key `"KEY123"`. -/
theorem apiKey_client_adds_api_key_witness :
    (∀ r : OutgoingRequest, (createAPIKeyPlugin "KEY123" r).query =
      r.query ++ [("api_key", JSVal.vStr "KEY123")]) ∧
    ("api_key", JSVal.vStr "KEY123") ∈
      [("method", JSVal.vStr "flickr.test.echo"),
       ("api_key", JSVal.vStr "KEY123")] :=
  apiKey_client_adds_api_key "KEY123" none "GET" "flickr.test.echo" (some [])
    { verb := "GET", url := "https://api.flickr.com/services/rest",
      query := [("method", JSVal.vStr "flickr.test.echo"),
                ("api_key", JSVal.vStr "KEY123")],
      parseJSON := true, headers := [] } rfl

/-- C6 counterexample: a client constructed with host `"localhost"` and
port `0` targets `https://localhost/services/rest`, not
`https://localhost:0/services/rest`, because rest.js appends the port
only when `opts.port` is truthy. -/
theorem custom_port_zero_counterexample :
    buildWith (createClient (AuthArg.str "k")
        (some { host := some "localhost", port := some 0 })) "GET" "a.b" none =
      Except.ok { verb := "GET", url := "https://localhost/services/rest",
                  query := [("method", JSVal.vStr "a.b"),
                            ("api_key", JSVal.vStr "k")],
                  parseJSON := true, headers := [] } ∧
    "https://localhost/services/rest" ≠ "https://localhost:0/services/rest" :=
  ⟨rfl, by decide⟩

/-- C6 amended: for a client constructed with a non-empty custom host
and a nonzero port, every successfully built request targets
`https://{host}:{port}/services/rest`; with a non-empty host and no
port (or the falsy port `0`), it targets `https://{host}/services/rest`;
with no options at all the host defaults to `api.flickr.com`. -/
theorem custom_host_port_url (key host : String) (port : Nat)
    (verb method : String) (args : Option Args)
    (hh : host ≠ "") (hp : port ≠ 0) :
    (∀ req : OutgoingRequest,
      buildWith (createClient (AuthArg.str key)
          (some { host := some host, port := some port })) verb method args =
        Except.ok req →
      req.url = "https://" ++ (host ++ ":" ++ toString port) ++ "/services/rest") ∧
    (∀ req : OutgoingRequest,
      buildWith (createClient (AuthArg.str key)
          (some { host := some host, port := none })) verb method args =
        Except.ok req →
      req.url = "https://" ++ host ++ "/services/rest") ∧
    (∀ req : OutgoingRequest,
      buildWith (createClient (AuthArg.str key)
          (some { host := some host, port := some 0 })) verb method args =
        Except.ok req →
      req.url = "https://" ++ host ++ "/services/rest") ∧
    (∀ req : OutgoingRequest,
      buildWith (createClient (AuthArg.str key) none) verb method args =
        Except.ok req →
      req.url = "https://api.flickr.com/services/rest") := by
  have hurl : ∀ (opts : Option Opts) (req : OutgoingRequest),
      buildWith (createClient (AuthArg.str key) opts) verb method args =
        Except.ok req →
      req.url = "https://" ++ resolveHost opts ++ "/services/rest" := by
    intro opts req h
    rw [buildWith_str] at h
    cases hpa : processArgs (args.getD []) with
    | error e => rw [hpa] at h; exact Except.noConfusion h
    | ok a =>
      rw [hpa] at h
      rw [(Except.ok.inj h).symm, url_assemble_apiKey]
  refine ⟨fun req h => ?_, fun req h => ?_, fun req h => ?_, fun req h => ?_⟩
  · rw [hurl _ req h]
    simp [resolveHost, hh, hp, String.append_assoc]
  · rw [hurl _ req h]
    simp [resolveHost, hh]
  · rw [hurl _ req h]
    simp [resolveHost, hh]
  · rw [hurl _ req h]; rfl

/-- Witness for C6-amended at host `"example.com"` and port `8080`. -/
theorem custom_host_port_url_witness :
    (∀ req : OutgoingRequest,
      buildWith (createClient (AuthArg.str "k")
          (some { host := some "example.com", port := some 8080 }))
          "GET" "a.b" none =
        Except.ok req →
      req.url = "https://" ++ ("example.com" ++ ":" ++ toString 8080) ++
        "/services/rest") ∧
    (∀ req : OutgoingRequest,
      buildWith (createClient (AuthArg.str "k")
          (some { host := some "example.com", port := none })) "GET" "a.b" none =
        Except.ok req →
      req.url = "https://" ++ "example.com" ++ "/services/rest") ∧
    (∀ req : OutgoingRequest,
      buildWith (createClient (AuthArg.str "k")
          (some { host := some "example.com", port := some 0 })) "GET" "a.b" none =
        Except.ok req →
      req.url = "https://" ++ "example.com" ++ "/services/rest") ∧
    (∀ req : OutgoingRequest,
      buildWith (createClient (AuthArg.str "k") none) "GET" "a.b" none =
        Except.ok req →
      req.url = "https://api.flickr.com/services/rest") :=
  custom_host_port_url "k" "example.com" 8080 "GET" "a.b" none
    (by decide) (by decide)

/-- C9: whenever a client built from a callable auth decorator
successfully assembles a request, the result is the decorator applied
to a base request that already carries the JSON response-parsing flag,
the `method` query parameter, and the whole processed args list — the
auth decorator is attached last and observes the complete parameter
set. -/
theorem auth_decorator_applied_last (f : OutgoingRequest → OutgoingRequest)
    (opts : Option Opts) (verb method : String) (args : Option Args)
    (req : OutgoingRequest)
    (hreq : buildWith (createClient (AuthArg.fn f) opts) verb method args =
      Except.ok req) :
    ∃ base : OutgoingRequest, req = f base ∧ base.parseJSON = true ∧
      ("method", JSVal.vStr method) ∈ base.query ∧
      ∃ args₂ : Args, processArgs (args.getD []) = Except.ok args₂ ∧
        base.query = ("method", JSVal.vStr method) :: args₂ := by
  rw [buildWith_fn] at hreq
  cases hpa : processArgs (args.getD []) with
  | error e => rw [hpa] at hreq; exact Except.noConfusion hreq
  | ok a =>
    rw [hpa] at hreq
    refine ⟨{ verb := verb,
              url := "https://" ++ resolveHost opts ++ "/services/rest",
              query := ("method", JSVal.vStr method) :: a,
              parseJSON := true, headers := [] },
      ?_, rfl, List.mem_cons_self _ _, a, rfl, rfl⟩
    rw [(Except.ok.inj hreq).symm, assemble_eq]

/-- Witness for C9: a concrete build through a header-adding callable
decorator. -/
theorem auth_decorator_applied_last_witness :
    ∃ base : OutgoingRequest,
      { verb := "GET", url := "https://api.flickr.com/services/rest",
        query := [("method", JSVal.vStr "m.n")], parseJSON := true,
        headers := [("Authorization", "sig")] : OutgoingRequest } =
        (fun r => { r with headers := [("Authorization", "sig")] }) base ∧
      base.parseJSON = true ∧
      ("method", JSVal.vStr "m.n") ∈ base.query ∧
      ∃ args₂ : Args, processArgs ((none : Option Args).getD []) =
          Except.ok args₂ ∧
        base.query = ("method", JSVal.vStr "m.n") :: args₂ :=
  auth_decorator_applied_last
    (fun r => { r with headers := [("Authorization", "sig")] }) none
    "GET" "m.n" none
    { verb := "GET", url := "https://api.flickr.com/services/rest",
      query := [("method", JSVal.vStr "m.n")], parseJSON := true,
      headers := [("Authorization", "sig")] } rfl

/-- C10: calling `Flickr(auth, opts)` without `new` re-constructs via
`new Flickr(auth)` and discards `opts`, so the resulting client equals
the one built with no options; in particular a key client given a
custom host and port this way still targets the default
`https://api.flickr.com/services/rest`. -/
theorem flickr_no_new_discards_opts (auth : AuthArg) (opts : Option Opts) :
    FlickrNoNew auth opts = createClient auth none ∧
    ∀ (key host : String) (port : Nat) (verb method : String)
      (args : Option Args) (req : OutgoingRequest),
      buildWith (FlickrNoNew (AuthArg.str key)
          (some { host := some host, port := some port })) verb method args =
        Except.ok req →
      req.url = "https://api.flickr.com/services/rest" := by
  refine ⟨rfl, ?_⟩
  intro key host port verb method args req h
  have hb : buildWith (createClient (AuthArg.str key) none) verb method args =
      Except.ok req := h
  rw [buildWith_str] at hb
  cases hpa : processArgs (args.getD []) with
  | error e => rw [hpa] at hb; exact Except.noConfusion hb
  | ok a =>
    rw [hpa] at hb
    rw [(Except.ok.inj hb).symm, url_assemble_apiKey]
    rfl

end FlickrRest
